import Mathlib

/- A verification development for the route / petrol-pump service in
map_view.py.  Python floats are modelled as rationals; external HTTP
services (OSRM routing, Overpass, Nominatim forward and reverse geocoding)
are modelled as explicit environment parameters describing the outcome of
each outbound call; the thread-pool completion order of the per-segment
Overpass queries is an explicit parameter (one index per submitted
segment, a permutation of the segment indices). -/

namespace MapView

/-- Squared distance from point p to the segment from a to b, in rational
arithmetic.  This is the point-to-segment distance used by the
Douglas-Peucker simplifier; comparisons against the tolerance are made on
squared values so that everything stays rational. -/
def segDistSq (a b p : ℚ × ℚ) : ℚ :=
  let dx := b.1 - a.1
  let dy := b.2 - a.2
  let lenSq := dx * dx + dy * dy
  if lenSq = 0 then (p.1 - a.1) * (p.1 - a.1) + (p.2 - a.2) * (p.2 - a.2)
  else
    let t := ((p.1 - a.1) * dx + (p.2 - a.2) * dy) / lenSq
    if t ≤ 0 then (p.1 - a.1) * (p.1 - a.1) + (p.2 - a.2) * (p.2 - a.2)
    else if 1 ≤ t then (p.1 - b.1) * (p.1 - b.1) + (p.2 - b.2) * (p.2 - b.2)
    else
      let cross := dx * (p.2 - a.2) - dy * (p.1 - a.1)
      cross * cross / lenSq

/-- Split a list at its first element of maximal f-value: returns the
elements before it, the element itself, and the elements after it; none on
the empty list. -/
def splitAtMax (f : ℚ × ℚ → ℚ) :
    List (ℚ × ℚ) → Option (List (ℚ × ℚ) × (ℚ × ℚ) × List (ℚ × ℚ))
  | [] => none
  | x :: xs =>
    match splitAtMax f xs with
    | none => some ([], x, [])
    | some (l, p, r) => if f p > f x then some (x :: l, p, r) else some ([], x, xs)

/-- Douglas-Peucker simplification of the open polyline a :: mid ++ [b]:
if the interior point farthest from the segment a-b is within tolerance,
drop the whole interior, otherwise split there and recurse.  Fuel-based so
that the kernel can evaluate it; fuel mid.length is always sufficient since
each recursive call passes a strictly shorter interior list. -/
def dpAux (tol : ℚ) : ℕ → (ℚ × ℚ) → List (ℚ × ℚ) → (ℚ × ℚ) → List (ℚ × ℚ)
  | 0, a, _, b => [a, b]
  | fuel + 1, a, mid, b =>
    match splitAtMax (segDistSq a b) mid with
    | none => [a, b]
    | some (l, p, r) =>
      if segDistSq a b p ≤ tol * tol then [a, b]
      else dpAux tol fuel a l p ++ (dpAux tol fuel p r b).tail

/-- Douglas-Peucker simplification with the fuel instantiated. -/
def dpSimplify (tol : ℚ) (a : ℚ × ℚ) (mid : List (ℚ × ℚ)) (b : ℚ × ℚ) :
    List (ℚ × ℚ) :=
  dpAux tol mid.length a mid b

/-- simplify_route from map_view.py (lines 21-34).  Shapely raises on a
one-point input (LineString needs 0 or at least 2 coordinates), which is
modelled as an error value; the empty input builds an empty LineString
whose simplification is empty.  The GEOS topology-preserving simplifier is
modelled as Douglas-Peucker, the algorithm class the library implements;
the tolerance default at the call site in the source is 0.01. -/
def simplify_route (route_coordinates : List (ℚ × ℚ)) (tolerance : ℚ) :
    Except String (List (ℚ × ℚ)) :=
  match route_coordinates with
  | [] => .ok []
  | [_] => .error "LineString must contain 0 or 2 or more coordinate tuples"
  | a :: x :: xs =>
    .ok (dpSimplify tolerance a ((x :: xs).dropLast)
      ((x :: xs).getLast (List.cons_ne_nil x xs)))

/-- The per-segment windowing from find_petrol_pumps, map_view.py line 101:
segments = [route_coordinates[i : i + segment_length]
            for i in range(0, len(route_coordinates), segment_length)].
Direct transliteration: range(0, len, n) has (len + n - 1) / n members for
n at least 1, and the slice [i : i + n] is drop i followed by take n. -/
def segments_of {α : Type} (route_coordinates : List α) (segment_length : ℕ) :
    List (List α) :=
  (List.range' 0
      ((route_coordinates.length + segment_length - 1) / segment_length)
      segment_length).map
    (fun i => (route_coordinates.drop i).take segment_length)

/-- A JSON-ish value stored in one of the Python dicts the pipeline builds. -/
inductive PyVal
  | str (s : String)
  | num (q : ℚ)
deriving DecidableEq

/-- A Python dict with string keys, as an insertion-ordered association list. -/
abbrev PyDict := List (String × PyVal)

/-- Python dict.update: keys already present get the new value in place,
new keys are appended in the order of the update dict. -/
def dictUpdate (d1 d2 : PyDict) : PyDict :=
  (d1.map (fun kv =>
    match d2.lookup kv.1 with
    | some v => (kv.1, v)
    | none => kv))
  ++ d2.filter (fun kv => (d1.lookup kv.1).isNone)

/-- The keys of a dict, in insertion order. -/
def dictKeys (d : PyDict) : List String := d.map Prod.fst

/-- One node element of an Overpass response: coordinates plus a tag
table; element.get("tags", \x7b\x7d) is modelled by the table defaulting
to the empty table. -/
structure OsmElement where
  lat : ℚ
  lon : ℚ
  tags : List (String × String)
deriving DecidableEq

/-- The parsed body of an Overpass response; the "elements" key may be
absent (in particular the empty dict returned on failure has none). -/
structure OverpassData where
  elements : Option (List OsmElement)
deriving DecidableEq

/-- Outcome of the one Overpass HTTP call a segment makes: either a
response body, or a requests.RequestException (timeout, non-2xx status
raised by raise_for_status, transport failure). -/
inductive OverpassOutcome
  | success (data : OverpassData)
  | failure
deriving DecidableEq

/-- query_overpass from map_view.py (lines 36-58): on success the parsed
JSON body is returned; any RequestException is caught, logged and turned
into an empty dict, i.e. a body without the "elements" key. -/
def query_overpass : OverpassOutcome → OverpassData
  | .success data => data
  | .failure => ⟨none⟩

/-- data.get("elements", []) as read at line 108. -/
def overpassElements (data : OverpassData) : List OsmElement :=
  data.elements.getD []

/-- The "address" sub-object of a Nominatim reverse-geocoding response;
each field may be missing. -/
structure NominatimAddress where
  road : Option String
  city : Option String
  state : Option String
deriving DecidableEq

/-- Outcome of one reverse-geocoding call: a parsed JSON body whose
"address" key may be absent, or a requests.RequestException (timeout,
non-2xx raised by raise_for_status, malformed JSON body). -/
inductive ReverseGeoOutcome
  | success (address : Option NominatimAddress)
  | failure
deriving DecidableEq

/-- geocode_coordinates from map_view.py (lines 60-87): extracts road,
city and state with "Unknown" defaults for missing fields; on any
RequestException returns all three fields as "Unknown". -/
def geocode_coordinates (envG : ℚ → ℚ → ReverseGeoOutcome) (lat lon : ℚ) :
    PyDict :=
  match envG lat lon with
  | .success address =>
    let a := address.getD ⟨none, none, none⟩
    [("address", .str (a.road.getD "Unknown")),
     ("city", .str (a.city.getD "Unknown")),
     ("state", .str (a.state.getD "Unknown"))]
  | .failure =>
    [("address", .str "Unknown"), ("city", .str "Unknown"),
     ("state", .str "Unknown")]

/-- The pump_info dict built at lines 111-115, before enrichment. -/
def pump_info_of (element : OsmElement) : PyDict :=
  [("name", .str ((element.tags.lookup "name").getD "Unknown")),
   ("latitude", .num element.lat),
   ("longitude", .num element.lon)]

/-- Lines 111-121: build pump_info, reverse geocode the element
coordinates, merge the address data in via dict.update. -/
def assemble_pump_info (envG : ℚ → ℚ → ReverseGeoOutcome)
    (element : OsmElement) : PyDict :=
  dictUpdate (pump_info_of element)
    (geocode_coordinates envG element.lat element.lon)

/-- Processing of one gathered segment future (lines 107-121): every
element of the response body becomes one enriched pump record. -/
def process_segment (envG : ℚ → ℚ → ReverseGeoOutcome) (data : OverpassData) :
    List PyDict :=
  (overpassElements data).map (fun element => assemble_pump_info envG element)

/-- The pump records contributed by the segment with the given index (an
out-of-range index, which never occurs for a completion order over the
submitted futures, contributes nothing). -/
def segment_pumps (envO : List (ℚ × ℚ) → OverpassOutcome)
    (envG : ℚ → ℚ → ReverseGeoOutcome) (route_coordinates : List (ℚ × ℚ))
    (segment_length : ℕ) (i : ℕ) : List PyDict :=
  match (segments_of route_coordinates segment_length)[i]? with
  | some seg => process_segment envG (query_overpass (envO seg))
  | none => []

/-- find_petrol_pumps from map_view.py (lines 89-125).  envO gives the
outcome of the Overpass call for each segment, envG the outcome of each
reverse-geocoding call; completion_order is the order in which
as_completed yields the submitted futures (a permutation of the segment
indices).  Each gathered segment is processed fully, including the
per-element enrichment, before the next future is taken. -/
def find_petrol_pumps (envO : List (ℚ × ℚ) → OverpassOutcome)
    (envG : ℚ → ℚ → ReverseGeoOutcome) (route_coordinates : List (ℚ × ℚ))
    (segment_length : ℕ) (completion_order : List ℕ) : List PyDict :=
  (completion_order.map
    (segment_pumps envO envG route_coordinates segment_length)).flatten

/-- Observable events of the find_petrol_pumps gather loop: a segment
future being gathered by as_completed, and one reverse-geocoding
(enrichment) call, tagged with the index of the segment whose element is
being enriched. -/
inductive PipelineEvent
  | segmentDone (segIdx : ℕ)
  | enrichPoi (segIdx : ℕ) (lat lon : ℚ)
deriving DecidableEq

/-- The events produced while processing one gathered segment. -/
def segment_events (i : ℕ) (data : OverpassData) : List PipelineEvent :=
  .segmentDone i ::
    (overpassElements data).map (fun el => .enrichPoi i el.lat el.lon)

/-- The events contributed by gathering the segment with the given
index. -/
def segment_block (envO : List (ℚ × ℚ) → OverpassOutcome)
    (route_coordinates : List (ℚ × ℚ)) (segment_length : ℕ) (i : ℕ) :
    List PipelineEvent :=
  match (segments_of route_coordinates segment_length)[i]? with
  | some seg => segment_events i (query_overpass (envO seg))
  | none => []

/-- The event trace of the gather loop of find_petrol_pumps: for each
future in completion order, the gather of that segment followed
immediately by the enrichment calls for its elements. -/
def pipeline_trace (envO : List (ℚ × ℚ) → OverpassOutcome)
    (route_coordinates : List (ℚ × ℚ)) (segment_length : ℕ)
    (completion_order : List ℕ) : List PipelineEvent :=
  (completion_order.map
    (segment_block envO route_coordinates segment_length)).flatten

def isDoneEvent : PipelineEvent → Bool
  | .segmentDone _ => true
  | .enrichPoi _ _ _ => false

def isEnrichEvent : PipelineEvent → Bool
  | .segmentDone _ => false
  | .enrichPoi _ _ _ => true

/-- The ordering property the spec asserts of the gather step: every
segment gather precedes every enrichment call, i.e. after the leading
gather events only enrichment events remain in the trace. -/
def enrichment_after_all_queries (t : List PipelineEvent) : Bool :=
  (t.dropWhile isDoneEvent).all isEnrichEvent

/-- Python exceptions that can escape the try body of get_best_route. -/
inductive PyExc
  | httpException (statusCode : ℕ) (detail : String)
  | requestsHTTPError (statusCode : ℕ)
  | requestsError (msg : String)
  | valueError (msg : String)
  | indexError
deriving DecidableEq

/-- str(e) for each modelled exception.  Starlette HTTPException prints as
"status: detail"; requests.HTTPError begins with the status code followed
by " Client Error" or " Server Error" (the reason and URL that follow in
the real message are not modelled); ValueError prints its message;
IndexError prints "list index out of range". -/
def pyExcStr : PyExc → String
  | .httpException statusCode detail => toString statusCode ++ ": " ++ detail
  | .requestsHTTPError statusCode =>
    toString statusCode ++
      (if statusCode < 500 then " Client Error" else " Server Error")
  | .requestsError msg => msg
  | .valueError msg => msg
  | .indexError => "list index out of range"

/-- str.split for a one-character separator, over the character list of
the Python string; adjacent separators and string edges produce empty
pieces, exactly like str.split with an explicit separator. -/
def splitOnChar (sep : Char) : List Char → List (List Char)
  | [] => [[]]
  | c :: rest =>
    let r := splitOnChar sep rest
    if c = sep then [] :: r
    else
      match r with
      | [] => [[c]]
      | g :: gs => (c :: g) :: gs

def isPySpace (c : Char) : Bool :=
  c = ' ' || c = '\t' || c = '\n' || c = '\r'

/-- Python float() strips surrounding whitespace before parsing. -/
def stripChars (cs : List Char) : List Char :=
  ((cs.dropWhile isPySpace).reverse.dropWhile isPySpace).reverse

/-- Value of a decimal digit string; some 0 on the empty string, none as
soon as a non-digit appears. -/
def digitsVal? (cs : List Char) : Option ℕ :=
  cs.foldl (fun acc c =>
    match acc with
    | none => none
    | some n => if c.isDigit then some (n * 10 + (c.toNat - 48)) else none)
    (some 0)

/-- Model of Python float() restricted to plain decimal literals: optional
sign, digits, optional dot and fractional digits, at least one digit in
total.  Exponents, inf and nan are not modelled and behave like parse
errors; values are exact rationals rather than IEEE doubles. -/
def pyFloat? (s : List Char) : Option ℚ :=
  let t := stripChars s
  let sgn : ℚ := match t with
    | '-' :: _ => -1
    | _ => 1
  let u : List Char := match t with
    | '-' :: rest => rest
    | '+' :: rest => rest
    | _ => t
  match splitOnChar '.' u with
  | [ip] =>
    if ip.isEmpty then none
    else (digitsVal? ip).map (fun m => sgn * (m : ℚ))
  | [ip, fp] =>
    if ip.isEmpty && fp.isEmpty then none
    else
      match digitsVal? ip, digitsVal? fp with
      | some m, some f =>
        some (sgn * ((m : ℚ) + (f : ℚ) / (10 : ℚ) ^ fp.length))
      | _, _ => none
  | _ => none

/-- tuple(map(float, s.split(","))) followed by reading entries 0 and 1,
as at lines 161-162; a piece float() rejects raises ValueError. -/
def parseCoordPair (s : String) : Except PyExc (ℚ × ℚ) :=
  match (splitOnChar ',' s.data).mapM pyFloat? with
  | none => .error (.valueError "could not convert string to float")
  | some qs => .ok (qs.getD 0 0, qs.getD 1 0)

/-- Outcome of one forward-geocoding (Nominatim search) call: a parsed
result list, each result reduced to its lat and lon numbers; or a non-2xx
response that raise_for_status turns into an HTTPError; or a transport
failure. -/
inductive ForwardGeoOutcome
  | results (found : List (ℚ × ℚ))
  | httpFailure (statusCode : ℕ)
  | requestFailure (msg : String)

/-- The nested geocode helper of get_best_route (lines 140-157): an empty
result list raises HTTPException(400) naming the location, otherwise the
first result is returned.  The source message quotes the location between
apostrophes, written \x27 here. -/
def geocode (envF : String → ForwardGeoOutcome) (location : String) :
    Except PyExc (ℚ × ℚ) :=
  match envF location with
  | .requestFailure msg => .error (.requestsError msg)
  | .httpFailure statusCode => .error (.requestsHTTPError statusCode)
  | .results [] =>
    .error (.httpException 400
      ("Location \x27" ++ location ++ "\x27 not found."))
  | .results (c :: _) => .ok c

/-- Outcome of the OSRM routing call: a response body with its "code"
field (possibly absent) and route geometries, or a non-2xx response
raised by raise_for_status, or a transport failure. -/
inductive OsrmOutcome
  | response (code : Option String) (routes : List (List (ℚ × ℚ)))
  | httpFailure (statusCode : ℕ)
  | requestFailure (msg : String)

/-- The JSON body returned by get_best_route on success. -/
structure RouteResponse where
  route : List (ℚ × ℚ)
  petrol_pumps : List PyDict
deriving DecidableEq

/-- Lines 159-165: if both inputs contain a comma they are parsed as
literal "lat,lon" pairs, otherwise both are forward geocoded. -/
def resolve_coords (envF : String → ForwardGeoOutcome)
    (start destination : String) : Except PyExc ((ℚ × ℚ) × (ℚ × ℚ)) :=
  if start.data.contains ',' && destination.data.contains ',' then
    match parseCoordPair start with
    | .error e => .error e
    | .ok s =>
      match parseCoordPair destination with
      | .error e => .error e
      | .ok d => .ok (s, d)
  else
    match geocode envF start with
    | .error e => .error e
    | .ok s =>
      match geocode envF destination with
      | .error e => .error e
      | .ok d => .ok (s, d)

/-- The try body of get_best_route (lines 139-192): resolve the inputs,
call OSRM, check the response code, simplify the best geometry, find the
pumps. -/
def get_best_route_inner (envF : String → ForwardGeoOutcome)
    (envR : (ℚ × ℚ) → (ℚ × ℚ) → OsrmOutcome)
    (envO : List (ℚ × ℚ) → OverpassOutcome)
    (envG : ℚ → ℚ → ReverseGeoOutcome) (completion_order : List ℕ)
    (start destination : String) : Except PyExc RouteResponse :=
  match resolve_coords envF start destination with
  | .error e => .error e
  | .ok (start_coords, destination_coords) =>
    match envR start_coords destination_coords with
    | .requestFailure msg => .error (.requestsError msg)
    | .httpFailure statusCode => .error (.requestsHTTPError statusCode)
    | .response code routes =>
      if code = some "Ok" then
        match routes with
        | [] => .error .indexError
        | geometry :: _ =>
          match simplify_route geometry (1 / 100) with
          | .error msg => .error (.valueError msg)
          | .ok simplified =>
            .ok ⟨simplified,
              find_petrol_pumps envO envG simplified 10 completion_order⟩
      else .error (.httpException 400 "Unable to find routes.")

/-- The HTTP response of the endpoint: either the JSON body, or an HTTP
error status with its detail message. -/
inductive EndpointResult
  | success (r : RouteResponse)
  | httpError (statusCode : ℕ) (detail : String)
deriving DecidableEq

/-- get_best_route from map_view.py (lines 127-196).  Any exception the
try body raises, including the HTTPException(400) values raised inside
it, is caught by the blanket except handler at line 194 and re-raised as
HTTPException(500, str(e)). -/
def get_best_route (envF : String → ForwardGeoOutcome)
    (envR : (ℚ × ℚ) → (ℚ × ℚ) → OsrmOutcome)
    (envO : List (ℚ × ℚ) → OverpassOutcome)
    (envG : ℚ → ℚ → ReverseGeoOutcome) (completion_order : List ℕ)
    (start destination : String) : EndpointResult :=
  match get_best_route_inner envF envR envO envG completion_order
      start destination with
  | .ok r => .success r
  | .error e => .httpError 500 (pyExcStr e)

/-- A two-point sample route whose windows of size one are two segments. -/
def sampleRoute : List (ℚ × ℚ) := [(0, 0), (1, 1)]

/-- A sample Overpass node element with a name tag. -/
def sampleElement : OsmElement := ⟨1, 1, [("name", "Shell")]⟩

/-- A sample Overpass environment in which the query for the first sample
segment fails and the second returns one element. -/
def envSeg0Fails : List (ℚ × ℚ) → OverpassOutcome := fun seg =>
  if seg = [((0 : ℚ), (0 : ℚ))] then .failure
  else .success ⟨some [sampleElement]⟩

/-- A sample Overpass environment in which the first sample segment has
one discovered element and the second has none. -/
def envSeg0HasPump : List (ℚ × ℚ) → OverpassOutcome := fun seg =>
  if seg = [((0 : ℚ), (0 : ℚ))] then .success ⟨some [⟨0, 0, []⟩]⟩
  else .success ⟨some []⟩

/-- A sample reverse-geocoding environment in which every call fails. -/
def envGeoFailsAlways : ℚ → ℚ → ReverseGeoOutcome := fun _ _ => .failure

theorem splitAtMax_eq_none {f : ℚ × ℚ → ℚ} {l : List (ℚ × ℚ)}
    (h : splitAtMax f l = none) : l = [] := by
  cases l with
  | nil => rfl
  | cons x xs =>
    exfalso
    simp only [splitAtMax] at h
    split at h
    · exact Option.noConfusion h
    · split at h
      · exact Option.noConfusion h
      · exact Option.noConfusion h

theorem splitAtMax_append {f : ℚ × ℚ → ℚ} :
    ∀ {l le ri : List (ℚ × ℚ)} {p : ℚ × ℚ},
      splitAtMax f l = some (le, p, ri) → l = le ++ p :: ri := by
  intro l
  induction l with
  | nil => intro le ri p h; exact Option.noConfusion h
  | cons x xs ih =>
    intro le ri p h
    simp only [splitAtMax] at h
    split at h
    · rename_i hxs
      injection h with h2
      injection h2 with ha hb
      injection hb with hb hc
      subst ha hb hc
      rw [splitAtMax_eq_none hxs]
      rfl
    · rename_i l1 p1 r1 hxs
      split at h
      · injection h with h2
        injection h2 with ha hb
        injection hb with hb hc
        subst ha hb hc
        rw [ih hxs]
        rfl
      · injection h with h2
        injection h2 with ha hb
        injection hb with hb hc
        subst ha hb hc
        rfl

theorem dpAux_shape (tol : ℚ) (fuel : ℕ) :
    ∀ (a : ℚ × ℚ) (mid : List (ℚ × ℚ)) (b : ℚ × ℚ),
      ∃ inner, dpAux tol fuel a mid b = a :: (inner ++ [b]) := by
  induction fuel with
  | zero => intro a mid b; exact ⟨[], rfl⟩
  | succ fuel ih =>
    intro a mid b
    simp only [dpAux]
    split
    · exact ⟨[], rfl⟩
    · rename_i t l p r hs
      split
      · exact ⟨[], rfl⟩
      · obtain ⟨i1, h1⟩ := ih a l p
        obtain ⟨i2, h2⟩ := ih p r b
        rw [h1, h2]
        exact ⟨i1 ++ p :: i2, by simp⟩

theorem dpAux_length (tol : ℚ) (fuel : ℕ) :
    ∀ (a : ℚ × ℚ) (mid : List (ℚ × ℚ)) (b : ℚ × ℚ),
      (dpAux tol fuel a mid b).length ≤ mid.length + 2 := by
  induction fuel with
  | zero => intro a mid b; simp [dpAux]
  | succ fuel ih =>
    intro a mid b
    simp only [dpAux]
    split
    · simp
    · rename_i t l p r hs
      have hsplit : mid = l ++ p :: r := splitAtMax_append hs
      split
      · rw [hsplit]; simp
      · have h1 := ih a l p
        have h2 := ih p r b
        have hmid : mid.length = l.length + r.length + 1 := by
          rw [hsplit]; simp only [List.length_append, List.length_cons]; omega
        simp only [List.length_append, List.length_tail]
        omega

theorem dpSimplify_shape (tol : ℚ) (a : ℚ × ℚ) (mid : List (ℚ × ℚ))
    (b : ℚ × ℚ) : ∃ inner, dpSimplify tol a mid b = a :: (inner ++ [b]) :=
  dpAux_shape tol mid.length a mid b

theorem dpSimplify_length (tol : ℚ) (a : ℚ × ℚ) (mid : List (ℚ × ℚ))
    (b : ℚ × ℚ) : (dpSimplify tol a mid b).length ≤ mid.length + 2 :=
  dpAux_length tol mid.length a mid b

theorem segments_of_nil {α : Type} (n : ℕ) : segments_of ([] : List α) n = [] := by
  have h : (List.length ([] : List α) + n - 1) / n = 0 := by
    simp only [List.length_nil]
    cases n with
    | zero => rfl
    | succ m => exact Nat.div_eq_of_lt (by omega)
  unfold segments_of
  rw [h]
  rfl

theorem segments_of_cons {α : Type} (x : α) (xs : List α) (n : ℕ) (hn : 1 ≤ n) :
    segments_of (x :: xs) n =
      (x :: xs).take n :: segments_of ((x :: xs).drop n) n := by
  unfold segments_of
  have hcount : ((x :: xs).length + n - 1) / n = xs.length / n + 1 := by
    have h1 : (x :: xs).length + n - 1 = xs.length + n := by
      simp only [List.length_cons]; omega
    rw [h1, Nat.add_div_right _ (by omega : 0 < n)]
  have hcount2 : (((x :: xs).drop n).length + n - 1) / n = xs.length / n := by
    simp only [List.length_drop, List.length_cons]
    by_cases hcase : n ≤ xs.length + 1
    · have e1 : xs.length + 1 - n + n - 1 = xs.length := by omega
      rw [e1]
    · have e1 : xs.length + 1 - n = 0 := by omega
      rw [e1]
      have e2 : xs.length / n = 0 := Nat.div_eq_of_lt (by omega)
      have e3 : (0 + n - 1) / n = 0 := Nat.div_eq_of_lt (by omega)
      rw [e2, e3]
  rw [hcount, hcount2, List.range'_succ]
  simp only [List.map_cons, List.drop_zero, Nat.zero_add]
  congr 1
  have hshift := List.map_add_range' n 0 (xs.length / n) n
  rw [Nat.add_zero] at hshift
  rw [← hshift, List.map_map]
  apply List.map_congr_left
  intro i hi
  simp only [Function.comp]
  rw [List.drop_drop]

theorem segments_of_flatten_le {α : Type} (n : ℕ) (hn : 1 ≤ n) :
    ∀ (N : ℕ) (xs : List α), xs.length ≤ N → (segments_of xs n).flatten = xs := by
  intro N
  induction N with
  | zero =>
    intro xs h
    have hx : xs = [] := List.length_eq_zero.mp (Nat.le_zero.mp h)
    subst hx
    rw [segments_of_nil]
    rfl
  | succ N ih =>
    intro xs h
    cases xs with
    | nil => rw [segments_of_nil]; rfl
    | cons x t =>
      rw [segments_of_cons x t n hn, List.flatten_cons,
        ih ((x :: t).drop n)
          (by simp only [List.length_drop, List.length_cons] at h ⊢; omega)]
      exact List.take_append_drop n (x :: t)

theorem segments_of_flatten {α : Type} (xs : List α) (n : ℕ) (hn : 1 ≤ n) :
    (segments_of xs n).flatten = xs :=
  segments_of_flatten_le n hn xs.length xs le_rfl

theorem segments_of_len_le {α : Type} (xs : List α) (n : ℕ) :
    ∀ s ∈ segments_of xs n, s.length ≤ n := by
  intro s hs
  simp only [segments_of, List.mem_map] at hs
  obtain ⟨i, hi, rfl⟩ := hs
  simp only [List.length_take]
  omega

theorem segments_of_dropLast_len {α : Type} (n : ℕ) (hn : 1 ≤ n) :
    ∀ (N : ℕ) (xs : List α), xs.length ≤ N →
      ∀ s ∈ (segments_of xs n).dropLast, s.length = n := by
  intro N
  induction N with
  | zero =>
    intro xs h s hs
    have hx : xs = [] := List.length_eq_zero.mp (Nat.le_zero.mp h)
    subst hx
    rw [segments_of_nil] at hs
    simp at hs
  | succ N ih =>
    intro xs h s hs
    cases xs with
    | nil => rw [segments_of_nil] at hs; simp at hs
    | cons x t =>
      rw [segments_of_cons x t n hn] at hs
      cases hrest : segments_of ((x :: t).drop n) n with
      | nil =>
        rw [hrest] at hs
        simp at hs
      | cons r rs =>
        rw [hrest, List.dropLast_cons₂] at hs
        rcases List.mem_cons.mp hs with hseq | hs2
        · subst hseq
          have hne : (x :: t).drop n ≠ [] := by
            intro hnil
            rw [hnil, segments_of_nil] at hrest
            exact List.noConfusion hrest
          have hlt : n < (x :: t).length := by
            by_contra hge
            exact hne (List.drop_eq_nil_of_le (by omega))
          simp only [List.length_take, List.length_cons] at hlt ⊢
          omega
        · refine ih ((x :: t).drop n)
            (by simp only [List.length_drop, List.length_cons] at h ⊢; omega) s ?_
          rw [hrest]
          exact hs2

/-- C8: for every polyline and every window size of at least one, the
segmenter produces windows whose concatenation, in order, is exactly the
original polyline, every window except possibly the last has exactly the
window size, and no window exceeds the window size. -/
theorem C8_segment_concat_exact {α : Type} (xs : List α) (n : ℕ) (hn : 1 ≤ n) :
    (segments_of xs n).flatten = xs ∧
      (∀ s ∈ (segments_of xs n).dropLast, s.length = n) ∧
      (∀ s ∈ segments_of xs n, s.length ≤ n) :=
  ⟨segments_of_flatten xs n hn,
   segments_of_dropLast_len n hn xs.length xs le_rfl,
   segments_of_len_le xs n⟩

/-- C8 witness: the window size two segmentation of a five-point list
concatenates back to the list. -/
theorem C8_segment_concat_exact_witness :
    1 ≤ 2 ∧ (segments_of ([0, 1, 2, 3, 4] : List ℕ) 2).flatten = [0, 1, 2, 3, 4] :=
  ⟨by decide, (C8_segment_concat_exact [0, 1, 2, 3, 4] 2 (by decide)).1⟩

/-- C4 counterexample: on the single-point polyline the source raises (the
shapely LineString constructor rejects one-point inputs), so the claimed
"returns the input unchanged and does not raise" fails. -/
theorem C4_single_point_counterexample :
    simplify_route [((0 : ℚ), (0 : ℚ))] (1 / 100)
        = .error "LineString must contain 0 or 2 or more coordinate tuples" ∧
      simplify_route [((0 : ℚ), (0 : ℚ))] (1 / 100) ≠ .ok [((0 : ℚ), (0 : ℚ))] := by
  constructor
  · rfl
  · intro h
    rw [show simplify_route [((0 : ℚ), (0 : ℚ))] (1 / 100)
          = Except.error "LineString must contain 0 or 2 or more coordinate tuples"
        from rfl] at h
    exact Except.noConfusion h

/-- C4 (amended): the empty input is returned unchanged without error; a
single-point input raises an error; for every input with at least two
points and every tolerance the output is non-empty. -/
theorem C4_degenerate_and_nonempty (l : List (ℚ × ℚ)) (tol : ℚ) :
    (l = [] → simplify_route l tol = .ok []) ∧
      (∀ p : ℚ × ℚ, l = [p] →
        simplify_route l tol
          = .error "LineString must contain 0 or 2 or more coordinate tuples") ∧
      (2 ≤ l.length → ∃ out, simplify_route l tol = .ok out ∧ out ≠ []) := by
  refine ⟨?_, ?_, ?_⟩
  · rintro rfl; rfl
  · rintro p rfl; rfl
  · intro h
    cases l with
    | nil => simp at h
    | cons a t =>
      cases t with
      | nil => simp at h
      | cons x xs =>
        obtain ⟨inner, hsh⟩ := dpSimplify_shape tol a ((x :: xs).dropLast)
          ((x :: xs).getLast (List.cons_ne_nil x xs))
        refine ⟨_, rfl, ?_⟩
        rw [hsh]
        simp

/-- C4 witness: a two-point polyline simplifies without error to a
non-empty output. -/
theorem C4_degenerate_and_nonempty_witness :
    2 ≤ ([(0, 0), (1, 1)] : List (ℚ × ℚ)).length ∧
      ∃ out, simplify_route ([(0, 0), (1, 1)] : List (ℚ × ℚ)) (1 / 100) = .ok out ∧
        out ≠ [] :=
  ⟨by decide, (C4_degenerate_and_nonempty [(0, 0), (1, 1)] (1 / 100)).2.2 (by decide)⟩

/-- C9: for every input polyline with at least two points and every
nonnegative tolerance, simplify_route succeeds and returns a polyline
whose first and last points equal the first and last points of the input
and whose vertex count is at most the vertex count of the input. -/
theorem C9_simplify_endpoints_and_count (l : List (ℚ × ℚ)) (tol : ℚ)
    (hlen : 2 ≤ l.length) (htol : 0 ≤ tol) :
    ∃ out, simplify_route l tol = .ok out ∧ out.head? = l.head? ∧
      out.getLast? = l.getLast? ∧ out.length ≤ l.length := by
  cases l with
  | nil => simp at hlen
  | cons a t =>
    cases t with
    | nil => simp at hlen
    | cons x xs =>
      refine ⟨dpSimplify tol a ((x :: xs).dropLast)
        ((x :: xs).getLast (List.cons_ne_nil x xs)), rfl, ?_, ?_, ?_⟩
      · obtain ⟨inner, hsh⟩ := dpSimplify_shape tol a ((x :: xs).dropLast)
          ((x :: xs).getLast (List.cons_ne_nil x xs))
        rw [hsh]
        rfl
      · obtain ⟨inner, hsh⟩ := dpSimplify_shape tol a ((x :: xs).dropLast)
          ((x :: xs).getLast (List.cons_ne_nil x xs))
        rw [hsh, ← List.cons_append, List.getLast?_concat, List.getLast?_cons_cons,
          List.getLast?_eq_getLast (x :: xs) (List.cons_ne_nil x xs)]
      · have hl := dpSimplify_length tol a ((x :: xs).dropLast)
          ((x :: xs).getLast (List.cons_ne_nil x xs))
        simp only [List.length_dropLast_cons, List.length_cons] at hl ⊢
        omega

/-- C9 witness: the three-point collinear polyline at tolerance zero. -/
theorem C9_simplify_endpoints_and_count_witness :
    2 ≤ ([(0, 0), (1, 0), (2, 0)] : List (ℚ × ℚ)).length ∧ (0 : ℚ) ≤ 0 ∧
      ∃ out, simplify_route ([(0, 0), (1, 0), (2, 0)] : List (ℚ × ℚ)) 0 = .ok out ∧
        out.head? = ([(0, 0), (1, 0), (2, 0)] : List (ℚ × ℚ)).head? ∧
        out.getLast? = ([(0, 0), (1, 0), (2, 0)] : List (ℚ × ℚ)).getLast? ∧
        out.length ≤ ([(0, 0), (1, 0), (2, 0)] : List (ℚ × ℚ)).length :=
  ⟨by decide, le_refl 0,
   C9_simplify_endpoints_and_count [(0, 0), (1, 0), (2, 0)] 0 (by decide) (le_refl 0)⟩

theorem geocode_coordinates_keys (envG : ℚ → ℚ → ReverseGeoOutcome)
    (lat lon : ℚ) :
    (geocode_coordinates envG lat lon).map Prod.fst
      = ["address", "city", "state"] := by
  unfold geocode_coordinates
  cases envG lat lon with
  | success address => rfl
  | failure => rfl

theorem assemble_pump_info_eq (envG : ℚ → ℚ → ReverseGeoOutcome)
    (element : OsmElement) :
    assemble_pump_info envG element
      = pump_info_of element
          ++ geocode_coordinates envG element.lat element.lon := by
  unfold assemble_pump_info dictUpdate geocode_coordinates
  cases envG element.lat element.lon with
  | success address => rfl
  | failure => rfl

theorem mem_find_petrol_pumps_of_segment (envO : List (ℚ × ℚ) → OverpassOutcome)
    (envG : ℚ → ℚ → ReverseGeoOutcome) (route : List (ℚ × ℚ)) (n : ℕ)
    (order : List ℕ) {j : ℕ} {segJ : List (ℚ × ℚ)}
    (hj : (segments_of route n)[j]? = some segJ) (hord : j ∈ order) :
    ∀ pump ∈ process_segment envG (query_overpass (envO segJ)),
      pump ∈ find_petrol_pumps envO envG route n order := by
  intro pump hp
  unfold find_petrol_pumps
  rw [List.mem_flatten]
  refine ⟨process_segment envG (query_overpass (envO segJ)), ?_, hp⟩
  have harm : segment_pumps envO envG route n j
      = process_segment envG (query_overpass (envO segJ)) := by
    unfold segment_pumps
    rw [hj]
  rw [← harm]
  exact List.mem_map_of_mem _ hord

/-- C10: merging the enrichment result into a pump record only appends the
address, city and state entries: the record is exactly the pre-merge
name-latitude-longitude dict followed by the enrichment dict, its keys
are exactly the six expected ones, and the name, latitude and longitude
entries keep the values taken from the raw element (name defaulting to
"Unknown" when the element has no name tag). -/
theorem C10_merge_frame_effect (envG : ℚ → ℚ → ReverseGeoOutcome)
    (element : OsmElement) :
    assemble_pump_info envG element
        = pump_info_of element
            ++ geocode_coordinates envG element.lat element.lon ∧
      dictKeys (assemble_pump_info envG element)
        = ["name", "latitude", "longitude", "address", "city", "state"] ∧
      (assemble_pump_info envG element).lookup "name"
        = some (.str ((element.tags.lookup "name").getD "Unknown")) ∧
      (assemble_pump_info envG element).lookup "latitude"
        = some (.num element.lat) ∧
      (assemble_pump_info envG element).lookup "longitude"
        = some (.num element.lon) := by
  refine ⟨assemble_pump_info_eq envG element, ?_, ?_, ?_, ?_⟩
  · rw [assemble_pump_info_eq envG element]
    unfold dictKeys
    rw [List.map_append, geocode_coordinates_keys]
    rfl
  · rw [assemble_pump_info_eq envG element]; rfl
  · rw [assemble_pump_info_eq envG element]; rfl
  · rw [assemble_pump_info_eq envG element]; rfl

/-- C6: when the Overpass query of one segment fails, that segment
contributes no pump records, while every pump record of every other
segment is still contained in the overall result (the pipeline is a total
function of the outcomes, so the request itself is never aborted). -/
theorem C6_failed_segment_isolation (envO : List (ℚ × ℚ) → OverpassOutcome)
    (envG : ℚ → ℚ → ReverseGeoOutcome) (route : List (ℚ × ℚ)) (n : ℕ)
    (order : List ℕ) (i : ℕ) (segI : List (ℚ × ℚ))
    (hseg : (segments_of route n)[i]? = some segI)
    (hfail : envO segI = .failure)
    (hord : order.Perm (List.range (segments_of route n).length)) :
    process_segment envG (query_overpass (envO segI)) = [] ∧
      ∀ j segJ, (segments_of route n)[j]? = some segJ → j ≠ i →
        ∀ pump ∈ process_segment envG (query_overpass (envO segJ)),
          pump ∈ find_petrol_pumps envO envG route n order := by
  constructor
  · rw [hfail]; rfl
  · intro j segJ hj hne pump hp
    have hjlt : j < (segments_of route n).length :=
      (List.getElem?_eq_some_iff.mp hj).1
    have hjord : j ∈ order := hord.mem_iff.mpr (List.mem_range.mpr hjlt)
    exact mem_find_petrol_pumps_of_segment envO envG route n order hj hjord pump hp

/-- C6 witness: on the sample route with window one, segment zero fails,
yet the enriched record of the element found in segment one is in the
result. -/
theorem C6_failed_segment_isolation_witness :
    (segments_of sampleRoute 1)[0]? = some [((0 : ℚ), (0 : ℚ))] ∧
      envSeg0Fails [((0 : ℚ), (0 : ℚ))] = .failure ∧
      ([0, 1] : List ℕ).Perm (List.range (segments_of sampleRoute 1).length) ∧
      process_segment envGeoFailsAlways
          (query_overpass (envSeg0Fails [((0 : ℚ), (0 : ℚ))])) = [] ∧
      assemble_pump_info envGeoFailsAlways sampleElement
        ∈ find_petrol_pumps envSeg0Fails envGeoFailsAlways sampleRoute 1 [0, 1] := by
  have hmain := C6_failed_segment_isolation envSeg0Fails envGeoFailsAlways
    sampleRoute 1 [0, 1] 0 [((0 : ℚ), (0 : ℚ))] rfl rfl (by decide)
  refine ⟨rfl, rfl, by decide, hmain.1, ?_⟩
  exact hmain.2 1 [((1 : ℚ), (1 : ℚ))] rfl (by decide) _ (by decide)

/-- C7: when the reverse-geocoding call for an element discovered in some
segment fails, the enricher returns address, city and state all "Unknown"
without raising, the assembled record carries those "Unknown" values, and
the record is still contained in the pipeline result. -/
theorem C7_enrichment_failure_unknown (envO : List (ℚ × ℚ) → OverpassOutcome)
    (envG : ℚ → ℚ → ReverseGeoOutcome) (route : List (ℚ × ℚ)) (n : ℕ)
    (order : List ℕ) (j : ℕ) (segJ : List (ℚ × ℚ)) (element : OsmElement)
    (hseg : (segments_of route n)[j]? = some segJ)
    (hel : element ∈ overpassElements (query_overpass (envO segJ)))
    (hfail : envG element.lat element.lon = .failure)
    (hord : order.Perm (List.range (segments_of route n).length)) :
    geocode_coordinates envG element.lat element.lon
        = [("address", .str "Unknown"), ("city", .str "Unknown"),
           ("state", .str "Unknown")] ∧
      (assemble_pump_info envG element).lookup "address"
        = some (.str "Unknown") ∧
      (assemble_pump_info envG element).lookup "city" = some (.str "Unknown") ∧
      (assemble_pump_info envG element).lookup "state" = some (.str "Unknown") ∧
      assemble_pump_info envG element
        ∈ find_petrol_pumps envO envG route n order := by
  have hgeo : geocode_coordinates envG element.lat element.lon
      = [("address", .str "Unknown"), ("city", .str "Unknown"),
         ("state", .str "Unknown")] := by
    unfold geocode_coordinates
    rw [hfail]
  refine ⟨hgeo, ?_, ?_, ?_, ?_⟩
  · rw [assemble_pump_info_eq, hgeo]; rfl
  · rw [assemble_pump_info_eq, hgeo]; rfl
  · rw [assemble_pump_info_eq, hgeo]; rfl
  · have hjlt : j < (segments_of route n).length :=
      (List.getElem?_eq_some_iff.mp hseg).1
    have hjord : j ∈ order := hord.mem_iff.mpr (List.mem_range.mpr hjlt)
    apply mem_find_petrol_pumps_of_segment envO envG route n order hseg hjord
    unfold process_segment
    exact List.mem_map_of_mem _ hel

/-- C7 witness: the element of segment one of the sample route, with every
reverse-geocoding call failing. -/
theorem C7_enrichment_failure_unknown_witness :
    (segments_of sampleRoute 1)[1]? = some [((1 : ℚ), (1 : ℚ))] ∧
      sampleElement
        ∈ overpassElements (query_overpass (envSeg0Fails [((1 : ℚ), (1 : ℚ))])) ∧
      envGeoFailsAlways sampleElement.lat sampleElement.lon = .failure ∧
      (assemble_pump_info envGeoFailsAlways sampleElement).lookup "address"
        = some (.str "Unknown") ∧
      assemble_pump_info envGeoFailsAlways sampleElement
        ∈ find_petrol_pumps envSeg0Fails envGeoFailsAlways sampleRoute 1 [0, 1] := by
  have hmain := C7_enrichment_failure_unknown envSeg0Fails envGeoFailsAlways
    sampleRoute 1 [0, 1] 1 [((1 : ℚ), (1 : ℚ))] sampleElement rfl (by decide) rfl
    (by decide)
  exact ⟨rfl, by decide, rfl, hmain.2.1, hmain.2.2.2.2⟩

theorem flatten_blocks_enrich_after_done (f : ℕ → List PipelineEvent)
    (hf : ∀ o, f o = [] ∨ ∃ es, f o = .segmentDone o :: es ∧
      ∀ e ∈ es, ∃ la lo, e = .enrichPoi o la lo) :
    ∀ (order : List ℕ) (j i : ℕ) (la lo : ℚ),
      ((order.map f).flatten)[j]? = some (.enrichPoi i la lo) →
      ∃ k, k < j ∧ ((order.map f).flatten)[k]? = some (.segmentDone i) := by
  intro order
  induction order with
  | nil => intro j i la lo hj; simp at hj
  | cons o os ih =>
    intro j i la lo hj
    rw [List.map_cons, List.flatten_cons] at hj
    by_cases hlt : j < (f o).length
    · rw [List.getElem?_append_left hlt] at hj
      rcases hf o with hnil | ⟨es, heq, hes⟩
      · rw [hnil] at hlt; simp at hlt
      · rw [heq] at hj hlt
        cases j with
        | zero =>
          rw [List.getElem?_cons_zero] at hj
          exact absurd (Option.some.inj hj) (by intro h; exact PipelineEvent.noConfusion h)
        | succ jj =>
          rw [List.getElem?_cons_succ] at hj
          have hmem : (.enrichPoi i la lo : PipelineEvent) ∈ es :=
            List.getElem?_mem hj
          obtain ⟨la2, lo2, he⟩ := hes _ hmem
          injection he with h1 h2 h3
          subst h1
          refine ⟨0, Nat.succ_pos jj, ?_⟩
          rw [List.map_cons, List.flatten_cons, heq]
          simp
    · push_neg at hlt
      rw [List.getElem?_append_right hlt] at hj
      obtain ⟨k, hk1, hk2⟩ := ih (j - (f o).length) i la lo hj
      refine ⟨(f o).length + k, by omega, ?_⟩
      rw [List.map_cons, List.flatten_cons,
        List.getElem?_append_right (by omega : (f o).length ≤ (f o).length + k)]
      rw [show (f o).length + k - (f o).length = k from by omega]
      exact hk2

/-- C5 counterexample: with two segments of the sample route gathered in
order, the element of the first gathered segment is enriched before the
second segment query has been gathered, so the trace is not of the form
"all segment gathers, then all enrichments" required by the claim. -/
theorem C5_streaming_counterexample :
    ([0, 1] : List ℕ).Perm (List.range (segments_of sampleRoute 1).length) ∧
      enrichment_after_all_queries
        (pipeline_trace envSeg0HasPump sampleRoute 1 [0, 1]) = false :=
  ⟨by decide, rfl⟩

/-- C5 (amended): enrichment of a segment its elements begins only after
that same segment query has been gathered — every enrichment event for
segment i is preceded in the trace by the gather event of segment i —
but it may happen while other segment queries are still outstanding. -/
theorem C5_enrich_only_after_own_segment (envO : List (ℚ × ℚ) → OverpassOutcome)
    (route : List (ℚ × ℚ)) (n : ℕ) (order : List ℕ) (j i : ℕ) (la lo : ℚ)
    (hj : (pipeline_trace envO route n order)[j]? = some (.enrichPoi i la lo)) :
    ∃ k, k < j ∧
      (pipeline_trace envO route n order)[k]? = some (.segmentDone i) := by
  have hf : ∀ o, segment_block envO route n o = [] ∨
      ∃ es, segment_block envO route n o = .segmentDone o :: es ∧
        ∀ e ∈ es, ∃ la lo, e = .enrichPoi o la lo := by
    intro o
    unfold segment_block
    cases hro : (segments_of route n)[o]? with
    | none => left; rfl
    | some seg =>
      right
      refine ⟨(overpassElements (query_overpass (envO seg))).map
        (fun el => PipelineEvent.enrichPoi o el.lat el.lon), ?_, ?_⟩
      · rfl
      intro e he
      simp only [List.mem_map] at he
      obtain ⟨el, _, rfl⟩ := he
      exact ⟨el.lat, el.lon, rfl⟩
  exact flatten_blocks_enrich_after_done _ hf order j i la lo hj

/-- C5 witness: in the sample trace the enrichment event at position one
belongs to segment zero, whose gather event is at position zero. -/
theorem C5_enrich_only_after_own_segment_witness :
    (pipeline_trace envSeg0HasPump sampleRoute 1 [0, 1])[1]?
        = some (.enrichPoi 0 0 0) ∧
      ∃ k, k < 1 ∧ (pipeline_trace envSeg0HasPump sampleRoute 1 [0, 1])[k]?
        = some (.segmentDone 0) :=
  ⟨rfl, C5_enrich_only_after_own_segment envSeg0HasPump sampleRoute 1 [0, 1]
    1 0 0 0 rfl⟩

/-- C1: for a free-text start whose forward geocoding returns zero
results, the code raises HTTPException(400) naming the location, but the
blanket except handler of get_best_route catches it and re-raises it as
HTTPException(500, str(e)), so the endpoint actually replies HTTP 500
(with the intended 400 message embedded in the detail), not HTTP 400. -/
theorem C1_zero_results_actual_response :
    get_best_route (fun _ => .results []) (fun _ _ => .response (some "Ok") [])
        (fun _ => .failure) (fun _ _ => .failure) [] "Springfield" "Shelbyville"
      = .httpError 500 "400: Location \x27Springfield\x27 not found." := by rfl

/-- C2: for an OSRM response body whose code is not "Ok", the code raises
HTTPException(400, "Unable to find routes."), but the blanket except
handler catches it and re-raises it as HTTPException(500, str(e)), so the
endpoint actually replies HTTP 500, not HTTP 400. -/
theorem C2_non_ok_code_actual_response :
    get_best_route (fun _ => .results [])
        (fun _ _ => .response (some "NoRoute") []) (fun _ => .failure)
        (fun _ _ => .failure) [] "12.97,77.59" "13.0,77.6"
      = .httpError 500 "400: Unable to find routes." := by rfl

/-- C3 counterexample: when the forward-geocoding provider answers 403,
the HTTPError raised by raise_for_status reaches the blanket except
handler and the endpoint replies HTTP 500, not the distinct HTTP 403 the
claim asserts. -/
theorem C3_access_denied_counterexample :
    get_best_route (fun _ => .httpFailure 403)
        (fun _ _ => .response (some "Ok") []) (fun _ => .failure)
        (fun _ _ => .failure) [] "Springfield" "Shelbyville"
      = .httpError 500 "403 Client Error" ∧ (500 : ℕ) ≠ 403 :=
  ⟨by rfl, by decide⟩

/-- C3 (amended): when the forward-geocoding provider rejects the request
for the start input (raise_for_status raises an HTTPError, for example on
status 403), the endpoint replies HTTP 500 whose detail is the string of
that HTTPError; access denial is not surfaced as a distinct 403
response. -/
theorem C3_access_denied_yields_500 (envF : String → ForwardGeoOutcome)
    (envR : (ℚ × ℚ) → (ℚ × ℚ) → OsrmOutcome)
    (envO : List (ℚ × ℚ) → OverpassOutcome)
    (envG : ℚ → ℚ → ReverseGeoOutcome) (order : List ℕ)
    (start destination : String) (statusCode : ℕ)
    (hc : (start.data.contains ',' && destination.data.contains ',') = false)
    (hf : envF start = .httpFailure statusCode) :
    get_best_route envF envR envO envG order start destination
      = .httpError 500 (pyExcStr (.requestsHTTPError statusCode)) := by
  unfold get_best_route get_best_route_inner resolve_coords geocode
  rw [hc, hf]
  rfl

/-- C3 witness: the amended statement applied to a 403 answer for a
comma-free start input. -/
theorem C3_access_denied_yields_500_witness :
    ("Springfield".data.contains ',' && "Shelbyville".data.contains ',') = false ∧
      (fun _ : String => ForwardGeoOutcome.httpFailure 403) "Springfield"
        = .httpFailure 403 ∧
      get_best_route (fun _ => ForwardGeoOutcome.httpFailure 403)
          (fun _ _ => .response (some "Ok") []) (fun _ => .failure)
          (fun _ _ => .failure) [] "Springfield" "Shelbyville"
        = .httpError 500 (pyExcStr (.requestsHTTPError 403)) :=
  ⟨rfl, rfl,
   C3_access_denied_yields_500 (fun _ => ForwardGeoOutcome.httpFailure 403)
     (fun _ _ => .response (some "Ok") []) (fun _ => .failure)
     (fun _ _ => .failure) [] "Springfield" "Shelbyville" 403 rfl rfl⟩

end MapView
